import Mathlib

/-!
Verification of the EntityDTOConverter repository
(`src/entitydtoconverter/converters.py`, `src/entitydtoconverter/base_dto.py`).

The module converts between four representations of application data:
Django/DRF requests, pydantic DTOs (transfer objects), plain dataclass
entities (records) and Django ORM model instances.

Embedding choices:
* Python runtime values are modelled by the inductive `Value`:
  `None`, ints, strings, bools, lists, plain dicts, dataclass instances
  (`vrec`, an ordered association list of field name/value pairs) and
  pydantic model instances (`vdto`, fields additionally carrying the
  pydantic `fields_set` flag that records whether the field was
  explicitly supplied at construction).
* A dataclass type (`EntityType`) and a pydantic model type (`DTOType`)
  are field declaration lists: field name together with an optional
  declared default (`none` means the field is required).
* Fallible Python code is modelled in `Except PyErr`; each Python
  exception class that the module can raise or catch is a `PyErr`
  constructor.
* The Django ORM manager is modelled by the list of stored instances
  carried by `ModelCls`; `objects.get(field=value)` is `objects_get`.
-/

namespace EntityDTOConverter

/-- A Python runtime value, as far as the converter module observes it. -/
inductive Value where
  | vnone
  | vint (n : Int)
  | vstr (s : String)
  | vbool (b : Bool)
  | vlist (xs : List Value)
  | vdict (fs : List (String × Value))
  | vrec (fs : List (String × Value))
  | vdto (fs : List (String × Value × Bool))

mutual
/-- Structural equality of Python values (`==`). -/
def Value.beq : Value → Value → Bool
  | .vnone, .vnone => true
  | .vint a, .vint b => a == b
  | .vstr a, .vstr b => a == b
  | .vbool a, .vbool b => a == b
  | .vlist a, .vlist b => beqList a b
  | .vdict a, .vdict b => beqFields a b
  | .vrec a, .vrec b => beqFields a b
  | .vdto a, .vdto b => beqDtoFields a b
  | _, _ => false
termination_by structural a _ => a

/-- Pointwise equality of value lists. -/
def beqList : List Value → List Value → Bool
  | [], [] => true
  | a :: as, b :: bs => a.beq b && beqList as bs
  | _, _ => false
termination_by structural a _ => a

/-- Pointwise equality of field lists. -/
def beqFields : List (String × Value) → List (String × Value) → Bool
  | [], [] => true
  | (k, v) :: as, (l, w) :: bs => k == l && v.beq w && beqFields as bs
  | _, _ => false
termination_by structural a _ => a

/-- Pointwise equality of DTO field lists. -/
def beqDtoFields : List (String × Value × Bool) → List (String × Value × Bool) → Bool
  | [], [] => true
  | (k, v, s) :: as, (l, w, t) :: bs => k == l && v.beq w && s == t && beqDtoFields as bs
  | _, _ => false
termination_by structural a _ => a
end

instance : BEq Value := ⟨Value.beq⟩

/-- `v is None` in Python. -/
def isNone : Value → Bool
  | .vnone => true
  | _ => false

/-- `dataclasses.is_dataclass` on an instance: true exactly for dataclass values. -/
def is_dataclass : Value → Bool
  | .vrec _ => true
  | _ => false

mutual
/-- Inner worker of `dataclasses.asdict`: recursively turns dataclass
instances into plain dicts, descending through lists and dicts; all
other values are (deep-)copied unchanged. -/
def asdictVal : Value → Value
  | .vnone => .vnone
  | .vint n => .vint n
  | .vstr s => .vstr s
  | .vbool b => .vbool b
  | .vlist xs => .vlist (asdictList xs)
  | .vdict fs => .vdict (asdictFields fs)
  | .vrec fs => .vdict (asdictFields fs)
  | .vdto fs => .vdto fs
termination_by structural v => v

/-- `asdict` recursion through a list value. -/
def asdictList : List Value → List Value
  | [] => []
  | v :: rest => asdictVal v :: asdictList rest
termination_by structural xs => xs

/-- `asdict` recursion through the entries of a dict or of a dataclass. -/
def asdictFields : List (String × Value) → List (String × Value)
  | [] => []
  | (k, v) :: rest => (k, asdictVal v) :: asdictFields rest
termination_by structural fs => fs
end

/-- The exceptions the converter module raises, catches or propagates. -/
inductive PyErr where
  | typeError
  | validationError
  | attributeError
  | notValidModelPassed
  | objectDoesNotExist
  | multipleObjectsReturned
deriving DecidableEq, Repr

/-- A pydantic model type: `model_fields` lists each declared field name
with its declared default (`none` = required field). -/
structure DTOType where
  model_fields : List (String × Option Value)

/-- A dataclass type: declared fields in order, each with an optional default. -/
structure EntityType where
  fields : List (String × Option Value)

mutual
/-- `model_dump` serialisation of one value: nested pydantic models
become dicts (the exclusion flags propagate into them), containers are
descended into, everything else is returned as is. -/
def dumpVal (eu en : Bool) : Value → Value
  | .vnone => .vnone
  | .vint n => .vint n
  | .vstr s => .vstr s
  | .vbool b => .vbool b
  | .vlist xs => .vlist (dumpList eu en xs)
  | .vdict fs => .vdict (dumpDict eu en fs)
  | .vrec fs => .vrec fs
  | .vdto fs => .vdict (dumpDtoFields eu en fs)
termination_by structural v => v

/-- `model_dump` recursion through a list value. -/
def dumpList (eu en : Bool) : List Value → List Value
  | [] => []
  | v :: rest => dumpVal eu en v :: dumpList eu en rest
termination_by structural xs => xs

/-- `model_dump` recursion through a plain dict value. -/
def dumpDict (eu en : Bool) : List (String × Value) → List (String × Value)
  | [] => []
  | (k, v) :: rest => (k, dumpVal eu en v) :: dumpDict eu en rest
termination_by structural fs => fs

/-- `model_dump` over the fields of a pydantic model: a field is skipped
when `exclude_unset` (`eu`) holds and the field was never explicitly
set, or when `exclude_none` (`en`) holds and its value is `None`. -/
def dumpDtoFields (eu en : Bool) : List (String × Value × Bool) → List (String × Value)
  | [] => []
  | (k, v, s) :: rest =>
      if (eu && !s) || (en && isNone v) then dumpDtoFields eu en rest
      else (k, dumpVal eu en v) :: dumpDtoFields eu en rest
termination_by structural fs => fs
end

/-- `instance.model_dump(exclude_unset=eu, exclude_none=en)`: only a
pydantic model instance has this method; on anything else attribute
lookup fails. -/
def model_dump (v : Value) (eu en : Bool) : Except PyErr (List (String × Value)) :=
  match v with
  | .vdto fs => .ok (dumpDtoFields eu en fs)
  | _ => .error .attributeError

/-- Python's `str.strip()`: surrounding whitespace removed. -/
def pyStrip (s : String) : String :=
  ⟨((s.data.dropWhile Char.isWhitespace).reverse.dropWhile Char.isWhitespace).reverse⟩

/-- The `str_strip_whitespace=True` entry of `BaseDTO`'s `ConfigDict`
(`base_dto.py`): a string value validated into a `str`-annotated field
has its surrounding whitespace stripped; non-string values are
unchanged. (`DTOType` carries no nested type information, so the
transformation applies to the field's own value, matching the
`str`-annotated fields of a structurally matching DTO.) -/
def stripVal : Value → Value
  | .vstr s => .vstr (pyStrip s)
  | v => v

/-- How pydantic populates one declared field `(k, d)` from the input
`data`: a supplied value is validated — which applies `BaseDTO`'s
whitespace stripping — and marked as explicitly set, else the declared
default is taken unvalidated (pydantic does not validate defaults) and
marked unset; `none` means the required field is missing. -/
def resolveDtoField (data : List (String × Value)) (k : String) (d : Option Value) :
    Option (Value × Bool) :=
  match data.lookup k with
  | some v => some (stripVal v, true)
  | none => d.map (fun dv => (dv, false))

/-- Field-by-field part of pydantic validation: each declared field is
populated by `resolveDtoField`; a missing required field is a
validation error. -/
def validateFields (decl : List (String × Option Value)) (data : List (String × Value)) :
    Except PyErr (List (String × Value × Bool)) :=
  match decl with
  | [] => .ok []
  | (k, d) :: rest =>
      match resolveDtoField data k d with
      | none => .error .validationError
      | some fv =>
          match validateFields rest data with
          | .error e => .error e
          | .ok vs => .ok ((k, fv.1, fv.2) :: vs)

/-- Pydantic construction/validation of a `BaseDTO` subclass (invoked both
by `Model(**data)` and by `Model.model_validate(data)`): `extra='forbid'`
rejects any key that is not a declared field, then every declared field is
populated by `validateFields`. -/
def model_validate (dto_cls : DTOType) (data : List (String × Value)) : Except PyErr Value :=
  if data.all (fun p => dto_cls.model_fields.any (fun q => q.1 == p.1)) then
    (validateFields dto_cls.model_fields data).map .vdto
  else .error .validationError

/-- How dataclass construction populates one declared field `(k, d)`
from the keyword arguments `data`: the supplied value, else the declared
default; `none` means the required argument is missing. -/
def resolveField (data : List (String × Value)) (k : String) (d : Option Value) :
    Option Value :=
  match data.lookup k with
  | some v => some v
  | none => d

/-- Field-by-field part of dataclass construction: each declared field
is populated by `resolveField`; a missing required field is a
`TypeError` (missing positional argument). -/
def mkEntityFields (decl : List (String × Option Value)) (data : List (String × Value)) :
    Except PyErr (List (String × Value)) :=
  match decl with
  | [] => .ok []
  | (k, d) :: rest =>
      match resolveField data k d with
      | none => .error .typeError
      | some v =>
          match mkEntityFields rest data with
          | .error e => .error e
          | .ok vs => .ok ((k, v) :: vs)

/-- Dataclass construction `entity_cls(**data)`: an unexpected keyword
argument is a `TypeError`, then every declared field is populated by
`mkEntityFields`. -/
def mkEntity (entity_cls : EntityType) (data : List (String × Value)) : Except PyErr Value :=
  if data.all (fun p => entity_cls.fields.any (fun q => q.1 == p.1)) then
    (mkEntityFields entity_cls.fields data).map .vrec
  else .error .typeError

/-- A DRF request: `data` is the parsed body, `query_params` the URL query. -/
structure Request where
  data : List (String × Value)
  query_params : List (String × Value)

/-- `request_to_dto(req, dto_model)`: take the body if truthy (non-empty),
else fall back to the query parameters; build the DTO from
`{k: data.get(k) for k in dto_model.model_fields.keys()}`, where a missing
key yields `None`. -/
def request_to_dto (req : Request) (dto_model : DTOType) : Except PyErr Value :=
  let data := if req.data.isEmpty then req.query_params else req.data
  model_validate dto_model
    (dto_model.model_fields.map (fun p => (p.1, (data.lookup p.1).getD .vnone)))

/-- `entity_to_dto(entity_instance, dto_cls)`: a non-dataclass argument
raises `TypeError`; otherwise the instance is dumped by `asdict` and
validated into the DTO class. -/
def entity_to_dto (entity_instance : Value) (dto_cls : DTOType) : Except PyErr Value :=
  match entity_instance with
  | .vrec fs => model_validate dto_cls (asdictFields fs)
  | _ => .error .typeError

/-- `entity_to_dtos`: list comprehension over `entity_to_dto`. -/
def entity_to_dtos (entities_instances : List Value) (dto_cls : DTOType) :
    Except PyErr (List Value) :=
  match entities_instances with
  | [] => .ok []
  | e :: rest =>
      match entity_to_dto e dto_cls with
      | .error err => .error err
      | .ok d =>
          match entity_to_dtos rest dto_cls with
          | .error err => .error err
          | .ok ds => .ok (d :: ds)

/-- `getattr(dto_instance, field)` on a pydantic model instance. -/
def dtoGetattr (v : Value) (k : String) : Except PyErr Value :=
  match v with
  | .vdto fs =>
      match fs.lookup k with
      | some fv => .ok fv.1
      | none => .error .attributeError
  | _ => .error .attributeError

/-- Python dict assignment `data[k] = v`: overwrite an existing entry,
otherwise append. -/
def setKey : List (String × Value) → String → Value → List (String × Value)
  | [], k, v => [(k, v)]
  | (k', v') :: rest, k, v =>
      if k' == k then (k, v) :: rest else (k', v') :: setKey rest k v

/-- Size measure used only for the termination of the
`dto_to_entity`/`applyFieldMap` recursion: the nested call always passes
`field_map = none`. -/
def fmSize : Option (List (String × Option EntityType)) → Nat
  | none => 0
  | some fm => fm.length + 1

mutual
/-- `dto_to_entity(dto_instance, entity_cls, field_map)`: dump the DTO with
`exclude_unset=True, exclude_none=True`; if a truthy `field_map` is given,
each listed field is replaced by the recursive conversion of
`getattr(dto_instance, field)` to the mapped dataclass type (a non-dataclass
mapping target raises `TypeError`); finally construct `entity_cls(**data)`.
A mapping target of `Option.none` models a Python value that is not a
dataclass type. -/
def dto_to_entity (dto_instance : Value) (entity_cls : EntityType)
    (field_map : Option (List (String × Option EntityType))) : Except PyErr Value :=
  match model_dump dto_instance true true with
  | .error e => .error e
  | .ok data =>
      match field_map with
      | some fm =>
          if fm.isEmpty then mkEntity entity_cls data
          else
            match applyFieldMap dto_instance data fm with
            | .error e => .error e
            | .ok data2 => mkEntity entity_cls data2
      | none => mkEntity entity_cls data
termination_by (fmSize field_map, 0)
decreasing_by all_goals (simp [fmSize, Prod.lex_iff]; try omega)

/-- The `for field, adapter in field_map.items()` loop of `dto_to_entity`. -/
def applyFieldMap (dto_instance : Value) (data : List (String × Value)) :
    List (String × Option EntityType) → Except PyErr (List (String × Value))
  | [] => .ok data
  | (field, adapter) :: rest =>
      match adapter with
      | some sub =>
          match dtoGetattr dto_instance field with
          | .error e => .error e
          | .ok v =>
              match dto_to_entity v sub none with
              | .error e => .error e
              | .ok conv => applyFieldMap dto_instance (setKey data field conv) rest
      | none => .error .typeError
termination_by fm => (0, fm.length + 1)
decreasing_by all_goals (simp [fmSize, Prod.lex_iff]; try omega)
end

/-- `dto_to_entities`: list comprehension building each entity from the
full `model_dump()` of its DTO — note: no unset/null filtering here. -/
def dto_to_entities (dto_instances : List Value) (entity_cls : EntityType) :
    Except PyErr (List Value) :=
  match dto_instances with
  | [] => .ok []
  | d :: rest =>
      match model_dump d false false with
      | .error err => .error err
      | .ok data =>
          match mkEntity entity_cls data with
          | .error err => .error err
          | .ok e =>
              match dto_to_entities rest entity_cls with
              | .error err => .error err
              | .ok es => .ok (e :: es)

/-- `dataclasses.replace(base, **patch)`: an unexpected keyword is a
`TypeError`; otherwise re-run the constructor with the base's fields,
overridden by the patch. -/
def dc_replace (base_fs : List (String × Value)) (patch : List (String × Value)) :
    Except PyErr Value :=
  if patch.all (fun p => base_fs.any (fun q => q.1 == p.1)) then
    .ok (.vrec (base_fs.map (fun q => (q.1, (patch.lookup q.1).getD q.2))))
  else .error .typeError

/-- `update_entity(base_entity, update_entity)` (the Python parameter
shadows the function name; here `update_ent`): both must be dataclass
instances; the patch keeps the non-`None` entries of `asdict(update_ent)`
and is overlaid on the base by `dataclasses.replace`. -/
def update_entity (base_entity update_ent : Value) : Except PyErr Value :=
  match base_entity, update_ent with
  | .vrec base_fs, .vrec upd_fs =>
      dc_replace base_fs ((asdictFields upd_fs).filter (fun p => !(isNone p.2)))
  | _, _ => .error .typeError

/-- A Django ORM model instance: `is_model` records whether its class is a
`models.Model` subclass; `attrs` are its attributes. -/
structure DjangoModel where
  is_model : Bool
  attrs : List (String × Value)

/-- `getattr(model_instance, name)`. -/
def modelGetattr (m : DjangoModel) (name : String) : Except PyErr Value :=
  match m.attrs.lookup name with
  | some v => .ok v
  | none => .error .attributeError

/-- The `for field in fields(entity_cls)` loop of `model_to_entity`:
resolve the model attribute name through `field_mapping` (default: the
entity field name), read the attribute, then apply the adapter found
under the resolved model attribute name, if any. -/
def buildEntityDict (model_instance : DjangoModel)
    (field_mapping : List (String × String))
    (adapters : List (String × (Value → Value))) :
    List (String × Option Value) → Except PyErr (List (String × Value))
  | [] => .ok []
  | (entity_name, _) :: rest =>
      let model_name := (field_mapping.lookup entity_name).getD entity_name
      match modelGetattr model_instance
          (if model_name != entity_name then model_name else entity_name) with
      | .error e => .error e
      | .ok raw =>
          let value := match adapters.lookup model_name with
                       | some adapter => adapter raw
                       | none => raw
          match buildEntityDict model_instance field_mapping adapters rest with
          | .error e => .error e
          | .ok vs => .ok ((entity_name, value) :: vs)

/-- `model_to_entity(model_instance, entity_cls, field_mapping, adapters)`:
a non-`models.Model` instance raises `NotValidModelPassed`; otherwise the
entity dict is assembled by `buildEntityDict` and `entity_cls(**entity_)`
is constructed. -/
def model_to_entity (model_instance : DjangoModel) (entity_cls : EntityType)
    (field_mapping : Option (List (String × String)))
    (adapters : Option (List (String × (Value → Value)))) : Except PyErr Value :=
  let fm := field_mapping.getD []
  let ad := adapters.getD []
  if !model_instance.is_model then .error .notValidModelPassed
  else
    match buildEntityDict model_instance fm ad entity_cls.fields with
    | .error e => .error e
    | .ok entity_ => mkEntity entity_cls entity_

/-- An ORM model class, carrying its manager's stored instances. -/
structure ModelCls where
  objects : List DjangoModel

/-- `model_cls.objects.get(**{filter_field: filter_value})`: exactly one
match is returned; none raises `ObjectDoesNotExist`; several raise
`MultipleObjectsReturned`. -/
def objects_get (model_cls : ModelCls) (filter_field : String) (filter_value : String) :
    Except PyErr DjangoModel :=
  match model_cls.objects.filter
      (fun m => m.attrs.lookup filter_field == some (Value.vstr filter_value)) with
  | [] => .error .objectDoesNotExist
  | [m] => .ok m
  | _ :: _ :: _ => .error .multipleObjectsReturned

/-- The `E | models.Model | None` result of `get_by`. -/
inductive GetByResult where
  | entity (e : Value)
  | raw (m : DjangoModel)
  | noneResult

/-- `get_by`: look the instance up; on `ObjectDoesNotExist` return `None`;
otherwise return it raw or converted by `model_to_entity`. Any other
exception (in particular `MultipleObjectsReturned`) propagates. -/
def get_by (model_cls : ModelCls) (filter_field : String) (filter_value : String)
    (entity_cls : EntityType) (return_raw : Bool)
    (field_mapping : Option (List (String × String)))
    (adapters : Option (List (String × (Value → Value)))) : Except PyErr GetByResult :=
  match objects_get model_cls filter_field filter_value with
  | .ok inst =>
      if return_raw then .ok (.raw inst)
      else (model_to_entity inst entity_cls field_mapping adapters).map .entity
  | .error .objectDoesNotExist => .ok .noneResult
  | .error e => .error e

/-- `get_raw_by`: the same lookup, always returning the raw instance, or
`None` when no object matches. -/
def get_raw_by (model_cls : ModelCls) (filter_field : String) (filter_value : String) :
    Except PyErr (Option DjangoModel) :=
  match objects_get model_cls filter_field filter_value with
  | .ok inst => .ok (some inst)
  | .error .objectDoesNotExist => .ok none
  | .error e => .error e

/-! ## Association-list lemmas -/

/-- Looking a key up after mapping a key-preserving function over an
association list applies the function to the found value. -/
theorem lookup_map_value {α β : Type} (g : String → α → β) (l : List (String × α)) (k : String) :
    (l.map (fun p => (p.1, g p.1 p.2))).lookup k = (l.lookup k).map (g k) := by
  induction l with
  | nil => simp
  | cons p rest ih =>
    obtain ⟨a, v⟩ := p
    by_cases h : k = a
    · subst h
      simp [List.lookup_cons]
    · have hb : (k == a) = false := by simp [h]
      simp [List.lookup_cons, hb, ih]

/-- A key absent from the key list looks up to `none`. -/
theorem lookup_eq_none_of_not_mem {α : Type} (l : List (String × α)) (k : String)
    (h : k ∉ l.map Prod.fst) : l.lookup k = none := by
  rw [List.lookup_eq_none_iff]
  intro p hp
  simp only [bne_iff_ne, ne_eq]
  intro hk
  exact h (hk ▸ List.mem_map_of_mem Prod.fst hp)

/-- A key present in the key list looks up to something. -/
theorem lookup_isSome_of_mem {α : Type} (l : List (String × α)) (k : String)
    (h : k ∈ l.map Prod.fst) : (l.lookup k).isSome := by
  rw [List.lookup_isSome_iff]
  obtain ⟨p, hp, hk⟩ := List.mem_map.mp h
  exact ⟨p, hp, by simp [hk]⟩

/-- A successful lookup comes from an actual entry. -/
theorem mem_of_lookup_eq_some {α : Type} {l : List (String × α)} {k : String} {v : α}
    (h : l.lookup k = some v) : (k, v) ∈ l := by
  induction l with
  | nil => simp at h
  | cons p rest ih =>
    obtain ⟨a, w⟩ := p
    rw [List.lookup_cons] at h
    by_cases hk : k = a
    · subst hk
      simp at h
      simp [h]
    · have hb : (k == a) = false := by simp [hk]
      rw [hb] at h
      exact List.mem_cons_of_mem _ (ih h)

/-- On an association list with distinct keys, filtering by a predicate
on the values commutes with lookup. -/
theorem lookup_filter_nodup {α : Type} (q : α → Bool) (l : List (String × α)) (k : String)
    (hnd : (l.map Prod.fst).Nodup) :
    (l.filter (fun p => q p.2)).lookup k
      = (l.lookup k).bind (fun v => if q v then some v else none) := by
  induction l with
  | nil => simp
  | cons p rest ih =>
    obtain ⟨a, v⟩ := p
    simp only [List.map_cons, List.nodup_cons] at hnd
    obtain ⟨ha, hnd'⟩ := hnd
    by_cases h : k = a
    · subst h
      have hnone : rest.lookup k = none := lookup_eq_none_of_not_mem rest k ha
      cases hq : q v
      · simp [List.filter_cons, hq, List.lookup_cons, hnone, ih hnd']
      · simp [List.filter_cons, hq, List.lookup_cons]
    · have hb : (k == a) = false := by simp [h]
      cases hq : q v
      · simp [List.filter_cons, hq, List.lookup_cons, hb, ih hnd']
      · simp [List.filter_cons, hq, List.lookup_cons, hb, ih hnd']

/-- `asdict` over dataclass fields maps `asdictVal` over the values. -/
theorem asdictFields_eq_map (fs : List (String × Value)) :
    asdictFields fs = fs.map (fun p => (p.1, asdictVal p.2)) := by
  induction fs with
  | nil => simp [asdictFields]
  | cons p rest ih =>
    obtain ⟨k, v⟩ := p
    simp [asdictFields, ih]

/-- `asdict` maps `None` to `None` and nothing else to `None`. -/
theorem isNone_asdictVal (v : Value) : isNone (asdictVal v) = isNone v := by
  cases v <;> simp [asdictVal, isNone]

/-- `isNone` detects exactly the `None` value. -/
theorem isNone_iff (v : Value) : isNone v = true ↔ v = .vnone := by
  cases v <;> simp [isNone]

/-- Every key of a `model_dump` result is a field name of the model. -/
theorem dumpDtoFields_keys_sub (eu en : Bool) (fs : List (String × Value × Bool))
    (p : String × Value) (hp : p ∈ dumpDtoFields eu en fs) : p.1 ∈ fs.map Prod.fst := by
  induction fs with
  | nil => simp [dumpDtoFields] at hp
  | cons f rest ih =>
    obtain ⟨k, v, s⟩ := f
    rw [dumpDtoFields] at hp
    by_cases hc : ((eu && !s) || (en && isNone v)) = true
    · rw [if_pos hc] at hp
      exact List.mem_cons_of_mem _ (ih hp)
    · rw [if_neg hc] at hp
      rcases List.mem_cons.mp hp with h | h
      · simp [h]
      · exact List.mem_cons_of_mem _ (ih h)

/-- On a model with distinct field names, looking a key up in the
`model_dump` output finds the (recursively dumped) field value, unless
the exclusion flags drop the field. -/
theorem lookup_dumpDtoFields (eu en : Bool) (fs : List (String × Value × Bool)) (k : String)
    (hnd : (fs.map Prod.fst).Nodup) :
    (dumpDtoFields eu en fs).lookup k
      = (fs.lookup k).bind
          (fun fv => if (eu && !fv.2) || (en && isNone fv.1) then none
                     else some (dumpVal eu en fv.1)) := by
  induction fs with
  | nil => simp [dumpDtoFields]
  | cons f rest ih =>
    obtain ⟨a, v, s⟩ := f
    simp only [List.map_cons, List.nodup_cons] at hnd
    obtain ⟨ha, hnd'⟩ := hnd
    by_cases h : k = a
    · subst h
      have hnone : rest.lookup k = none := lookup_eq_none_of_not_mem rest k ha
      have hdnone : (dumpDtoFields eu en rest).lookup k = none := by
        rw [ih hnd', hnone]
        rfl
      by_cases hc : ((eu && !s) || (en && isNone v)) = true
      · rw [dumpDtoFields, if_pos hc, hdnone, List.lookup_cons_self]
        show none = if (eu && !s || en && isNone v) = true then none
          else some (dumpVal eu en v)
        rw [if_pos hc]
      · rw [dumpDtoFields, if_neg hc, List.lookup_cons_self, List.lookup_cons_self]
        show some (dumpVal eu en v) = if (eu && !s || en && isNone v) = true then none
          else some (dumpVal eu en v)
        rw [if_neg hc]
    · have hb : (k == a) = false := by simp [h]
      by_cases hc : ((eu && !s) || (en && isNone v)) = true
      · rw [dumpDtoFields, if_pos hc, ih hnd']
        simp only [List.lookup_cons, hb]
      · rw [dumpDtoFields, if_neg hc]
        simp only [List.lookup_cons, hb, ih hnd']

/-- Discharges the duck-typed `extra`/unexpected-keyword guards. -/
theorem keys_all_any {α β : Type} (data : List (String × α)) (decl : List (String × β))
    (h : ∀ p ∈ data, p.1 ∈ decl.map Prod.fst) :
    data.all (fun p => decl.any (fun q => q.1 == p.1)) = true := by
  rw [List.all_eq_true]
  intro p hp
  rw [List.any_eq_true]
  obtain ⟨q, hq, hqk⟩ := List.mem_map.mp (h p hp)
  exact ⟨q, hq, by simp [hqk]⟩

/-- When every declared field resolves, dataclass field population
succeeds and produces exactly the resolved values, in declaration order. -/
theorem mkEntityFields_eq_ok (decl : List (String × Option Value)) (data : List (String × Value))
    (h : ∀ p ∈ decl, (resolveField data p.1 p.2).isSome) :
    mkEntityFields decl data
      = .ok (decl.map (fun p => (p.1, (resolveField data p.1 p.2).getD .vnone))) := by
  induction decl with
  | nil => simp [mkEntityFields]
  | cons p rest ih =>
    obtain ⟨k, d⟩ := p
    have hk := h (k, d) (List.mem_cons_self _ _)
    obtain ⟨v, hv⟩ := Option.isSome_iff_exists.mp hk
    have hrest := ih (fun p hp => h p (List.mem_cons_of_mem _ hp))
    rw [mkEntityFields, hv, hrest]
    simp [hv]

/-- When every declared field resolves, pydantic field population
succeeds and produces exactly the resolved value/set-flag pairs. -/
theorem validateFields_eq_ok (decl : List (String × Option Value)) (data : List (String × Value))
    (h : ∀ p ∈ decl, (resolveDtoField data p.1 p.2).isSome) :
    validateFields decl data
      = .ok (decl.map (fun p => (p.1, (resolveDtoField data p.1 p.2).getD (.vnone, false)))) := by
  induction decl with
  | nil => simp [validateFields]
  | cons p rest ih =>
    obtain ⟨k, d⟩ := p
    have hk := h (k, d) (List.mem_cons_self _ _)
    obtain ⟨fv, hfv⟩ := Option.isSome_iff_exists.mp hk
    have hrest := ih (fun p hp => h p (List.mem_cons_of_mem _ hp))
    rw [validateFields, hfv, hrest]
    simp [hfv]

/-- Dataclass construction `entity_cls(**data)` succeeds when every data
key is declared and every declared field resolves, and yields the
resolved field values in declaration order. -/
theorem mkEntity_eq_ok (entity_cls : EntityType) (data : List (String × Value))
    (hkeys : ∀ p ∈ data, p.1 ∈ entity_cls.fields.map Prod.fst)
    (hres : ∀ p ∈ entity_cls.fields, (resolveField data p.1 p.2).isSome) :
    mkEntity entity_cls data
      = .ok (.vrec (entity_cls.fields.map
          (fun p => (p.1, (resolveField data p.1 p.2).getD .vnone)))) := by
  rw [mkEntity, if_pos (keys_all_any data entity_cls.fields hkeys),
    mkEntityFields_eq_ok entity_cls.fields data hres]
  rfl

/-- Pydantic construction succeeds when every data key is declared and
every declared field resolves, and yields the resolved fields in
declaration order. -/
theorem model_validate_eq_ok (dto_cls : DTOType) (data : List (String × Value))
    (hkeys : ∀ p ∈ data, p.1 ∈ dto_cls.model_fields.map Prod.fst)
    (hres : ∀ p ∈ dto_cls.model_fields, (resolveDtoField data p.1 p.2).isSome) :
    model_validate dto_cls data
      = .ok (.vdto (dto_cls.model_fields.map
          (fun p => (p.1, (resolveDtoField data p.1 p.2).getD (.vnone, false))))) := by
  rw [model_validate, if_pos (keys_all_any data dto_cls.model_fields hkeys),
    validateFields_eq_ok dto_cls.model_fields data hres]
  rfl

/-- `validateFields` can only fail with a `ValidationError`. -/
theorem validateFields_error (decl : List (String × Option Value)) (data : List (String × Value))
    (e : PyErr) (h : validateFields decl data = .error e) : e = .validationError := by
  induction decl with
  | nil => simp [validateFields] at h
  | cons p rest ih =>
    obtain ⟨k, d⟩ := p
    rw [validateFields] at h
    cases hr : resolveDtoField data k d with
    | none =>
      rw [hr] at h
      exact (Except.error.injEq _ _).mp h.symm |>.symm ▸ rfl
    | some fv =>
      rw [hr] at h
      cases hv : validateFields rest data with
      | error e' =>
        rw [hv] at h
        cases h
        exact ih hv
      | ok vs =>
        rw [hv] at h
        simp at h

/-- `model_validate` never raises a `TypeError`. -/
theorem model_validate_ne_typeError (dto_cls : DTOType) (data : List (String × Value)) :
    model_validate dto_cls data ≠ .error .typeError := by
  rw [model_validate]
  by_cases hg : data.all (fun p => dto_cls.model_fields.any (fun q => q.1 == p.1)) = true
  · rw [if_pos hg]
    intro h
    cases hv : validateFields dto_cls.model_fields data with
    | error e =>
      rw [hv] at h
      have := validateFields_error _ _ _ hv
      simp [Except.map] at h
      exact absurd (h ▸ this) (by simp [this, h])
    | ok vs =>
      rw [hv] at h
      simp [Except.map] at h
  · rw [if_neg hg]
    simp

/-! ## Claim theorems -/

/-- C7: `entity_to_dto` fails with a `TypeError` exactly when its source
argument is not a dataclass instance; on a dataclass instance it never
raises `TypeError` and converts by `asdict` attribute extraction
followed by pydantic validation into the transfer type. -/
theorem claim_C7_entity_to_dto_typeError :
    (∀ (v : Value) (dto_cls : DTOType),
        entity_to_dto v dto_cls = .error .typeError ↔ is_dataclass v = false)
    ∧ (∀ (fs : List (String × Value)) (dto_cls : DTOType),
        entity_to_dto (.vrec fs) dto_cls = model_validate dto_cls (asdictFields fs)) := by
  constructor
  · intro v dto_cls
    cases v with
    | vrec fs =>
      simp only [entity_to_dto, is_dataclass]
      exact ⟨fun h => absurd h (model_validate_ne_typeError dto_cls (asdictFields fs)),
             fun h => by cases h⟩
    | vnone => simp [entity_to_dto, is_dataclass]
    | vint n => simp [entity_to_dto, is_dataclass]
    | vstr s => simp [entity_to_dto, is_dataclass]
    | vbool b => simp [entity_to_dto, is_dataclass]
    | vlist xs => simp [entity_to_dto, is_dataclass]
    | vdict fs => simp [entity_to_dto, is_dataclass]
    | vdto fs => simp [entity_to_dto, is_dataclass]
  · intro fs dto_cls
    rfl

/-- C9: `request_to_dto` reads the request body when non-empty, else the
query parameters; every field declared on the DTO type is extracted from
that source under the same name (missing values become `None`, every
field counts as explicitly supplied) and the DTO is constructed by
validation — which applies `BaseDTO`'s whitespace stripping to string
values — successfully. -/
theorem claim_C9_request_to_dto :
    ∀ (req : Request) (dto_model : DTOType),
      request_to_dto req dto_model
        = .ok (.vdto (dto_model.model_fields.map (fun p =>
            (p.1,
             stripVal
               (((if req.data.isEmpty then req.query_params else req.data).lookup p.1).getD
                 .vnone),
             true)))) := by
  intro req dto_model
  rw [request_to_dto]
  set data := if req.data.isEmpty then req.query_params else req.data with hdata
  set kwargs := dto_model.model_fields.map (fun p => (p.1, (data.lookup p.1).getD .vnone))
    with hkwargs
  have hlk : ∀ k, kwargs.lookup k
      = (dto_model.model_fields.lookup k).map (fun _ => (data.lookup k).getD .vnone) := by
    intro k
    rw [hkwargs]
    exact lookup_map_value (fun k _ => (data.lookup k).getD .vnone) dto_model.model_fields k
  have hkeys : ∀ p ∈ kwargs, p.1 ∈ dto_model.model_fields.map Prod.fst := by
    intro p hp
    rw [hkwargs] at hp
    obtain ⟨q, hq, hqp⟩ := List.mem_map.mp hp
    exact hqp ▸ List.mem_map_of_mem Prod.fst hq
  have hres : ∀ p ∈ dto_model.model_fields, (resolveDtoField kwargs p.1 p.2).isSome := by
    intro p hp
    have hmem : (dto_model.model_fields.lookup p.1).isSome :=
      lookup_isSome_of_mem _ _ (List.mem_map_of_mem Prod.fst hp)
    obtain ⟨d, hd⟩ := Option.isSome_iff_exists.mp hmem
    rw [resolveDtoField, hlk p.1, hd]
    rfl
  rw [model_validate_eq_ok dto_model kwargs hkeys hres]
  congr 2
  apply List.map_congr_left
  intro p hp
  have hmem : (dto_model.model_fields.lookup p.1).isSome :=
    lookup_isSome_of_mem _ _ (List.mem_map_of_mem Prod.fst hp)
  obtain ⟨d, hd⟩ := Option.isSome_iff_exists.mp hmem
  rw [resolveDtoField, hlk p.1, hd]
  rfl

/-- C4: the batch converter `dto_to_entities` builds each record from the
full `model_dump()` of the DTO, with no unset/null filtering; hence on a
DTO with a field explicitly set to `None` the batch result differs from
the single-form `dto_to_entity` result, which drops that field in favour
of the record default. -/
theorem claim_C4_batch_no_filtering :
    (∀ (fs : List (String × Value × Bool)) (entity_cls : EntityType),
        dto_to_entities [.vdto fs] entity_cls
          = match mkEntity entity_cls (dumpDtoFields false false fs) with
            | .error err => .error err
            | .ok e => .ok [e])
    ∧ dto_to_entities [.vdto [("first_name", .vstr "Test", true), ("age", .vnone, true)]]
          ⟨[("first_name", none), ("age", some (.vint 18))]⟩
        = .ok [.vrec [("first_name", .vstr "Test"), ("age", .vnone)]]
    ∧ dto_to_entity (.vdto [("first_name", .vstr "Test", true), ("age", .vnone, true)])
          ⟨[("first_name", none), ("age", some (.vint 18))]⟩ none
        = .ok (.vrec [("first_name", .vstr "Test"), ("age", .vint 18)])
    ∧ (Value.vrec [("first_name", .vstr "Test"), ("age", .vnone)])
        ≠ .vrec [("first_name", .vstr "Test"), ("age", .vint 18)] := by
  refine ⟨?_, rfl, by rw [dto_to_entity.eq_def]; rfl, by simp⟩
  intro fs entity_cls
  cases hm : mkEntity entity_cls (dumpDtoFields false false fs) with
  | error err => simp [dto_to_entities, model_dump, hm]
  | ok e => simp [dto_to_entities, model_dump, hm]

/-- Elementwise characterisation of a successful `entity_to_dtos`. -/
theorem entity_to_dtos_elements (xs : List Value) (dto_cls : DTOType) (ys : List Value)
    (h : entity_to_dtos xs dto_cls = .ok ys) :
    ys.length = xs.length ∧
      ∀ i (hx : i < xs.length) (hy : i < ys.length),
        entity_to_dto (xs.get ⟨i, hx⟩) dto_cls = .ok (ys.get ⟨i, hy⟩) := by
  induction xs generalizing ys with
  | nil =>
    rw [entity_to_dtos] at h
    cases h
    exact ⟨rfl, fun i hx _ => by simp at hx⟩
  | cons e rest ih =>
    rw [entity_to_dtos] at h
    cases hd : entity_to_dto e dto_cls with
    | error err => simp only [hd] at h; cases h
    | ok d =>
      simp only [hd] at h
      cases hr : entity_to_dtos rest dto_cls with
      | error err => simp only [hr] at h; cases h
      | ok ds =>
        simp only [hr] at h
        cases h
        obtain ⟨hlen, helem⟩ := ih ds hr
        refine ⟨by simp [hlen], ?_⟩
        intro i hx hy
        cases i with
        | zero => simpa using hd
        | succ n => exact helem n (by simpa using hx) (by simpa using hy)

/-- Elementwise characterisation of a successful `dto_to_entities`. -/
theorem dto_to_entities_elements (ds : List Value) (entity_cls : EntityType) (es : List Value)
    (h : dto_to_entities ds entity_cls = .ok es) :
    es.length = ds.length ∧
      ∀ i (hd : i < ds.length) (he : i < es.length),
        ∃ data, model_dump (ds.get ⟨i, hd⟩) false false = .ok data ∧
          mkEntity entity_cls data = .ok (es.get ⟨i, he⟩) := by
  induction ds generalizing es with
  | nil =>
    rw [dto_to_entities] at h
    cases h
    exact ⟨rfl, fun i hd _ => by simp at hd⟩
  | cons d rest ih =>
    rw [dto_to_entities] at h
    cases hm : model_dump d false false with
    | error err => simp only [hm] at h; cases h
    | ok data =>
      simp only [hm] at h
      cases he : mkEntity entity_cls data with
      | error err => simp only [he] at h; cases h
      | ok e =>
        simp only [he] at h
        cases hr : dto_to_entities rest entity_cls with
        | error err => simp only [hr] at h; cases h
        | ok es' =>
          simp only [hr] at h
          cases h
          obtain ⟨hlen, helem⟩ := ih es' hr
          refine ⟨by simp [hlen], ?_⟩
          intro i hdi hei
          cases i with
          | zero => exact ⟨data, hm, he⟩
          | succ n => exact helem n (by simpa using hdi) (by simpa using hei)

/-- C8: the batch converters `entity_to_dtos` and `dto_to_entities` return
an empty list on empty input, and on non-empty input return exactly one
converted element per input element, in input order. -/
theorem claim_C8_batch_conversions :
    (∀ dto_cls, entity_to_dtos [] dto_cls = .ok [])
    ∧ (∀ entity_cls, dto_to_entities [] entity_cls = .ok [])
    ∧ (∀ xs dto_cls ys, entity_to_dtos xs dto_cls = .ok ys →
        ys.length = xs.length ∧
          ∀ i (hx : i < xs.length) (hy : i < ys.length),
            entity_to_dto (xs.get ⟨i, hx⟩) dto_cls = .ok (ys.get ⟨i, hy⟩))
    ∧ (∀ ds entity_cls es, dto_to_entities ds entity_cls = .ok es →
        es.length = ds.length ∧
          ∀ i (hd : i < ds.length) (he : i < es.length),
            ∃ data, model_dump (ds.get ⟨i, hd⟩) false false = .ok data ∧
              mkEntity entity_cls data = .ok (es.get ⟨i, he⟩)) :=
  ⟨fun _ => rfl, fun _ => rfl, entity_to_dtos_elements, dto_to_entities_elements⟩

/-- Witness for C8: both batch converters evaluated on empty and on
concrete singleton inputs, with the length equations obtained from the
claim theorem itself. -/
theorem claim_C8_batch_conversions_witness :
    entity_to_dtos [] ⟨[("a", none)]⟩ = .ok []
    ∧ dto_to_entities [] ⟨[("a", none)]⟩ = .ok []
    ∧ entity_to_dtos [.vrec [("a", .vint 1)]] ⟨[("a", none)]⟩
        = .ok [.vdto [("a", .vint 1, true)]]
    ∧ ([Value.vdto [("a", .vint 1, true)]].length = [Value.vrec [("a", .vint 1)]].length)
    ∧ dto_to_entities [.vdto [("a", .vint 1, true)]] ⟨[("a", none)]⟩
        = .ok [.vrec [("a", .vint 1)]]
    ∧ ([Value.vrec [("a", .vint 1)]].length = [Value.vdto [("a", .vint 1, true)]].length) := by
  refine ⟨claim_C8_batch_conversions.1 ⟨[("a", none)]⟩,
          claim_C8_batch_conversions.2.1 ⟨[("a", none)]⟩, rfl, ?_, rfl, ?_⟩
  · exact (claim_C8_batch_conversions.2.2.1 [.vrec [("a", .vint 1)]] ⟨[("a", none)]⟩
      [.vdto [("a", .vint 1, true)]] rfl).1
  · exact (claim_C8_batch_conversions.2.2.2 [.vdto [("a", .vint 1, true)]] ⟨[("a", none)]⟩
      [.vrec [("a", .vint 1)]] rfl).1

/-- C6: when no stored object matches `filter_field=filter_value`, `get_by`
and `get_raw_by` return `None` rather than raising; when exactly one
matches, `get_by` returns it converted by `model_to_entity` when
`return_raw` is false and the raw stored object when `return_raw` is true,
and `get_raw_by` returns the raw stored object. -/
theorem claim_C6_get_by :
    (∀ (model_cls : ModelCls) (f v : String) (entity_cls : EntityType)
        (rr : Bool) (fm : Option (List (String × String)))
        (ad : Option (List (String × (Value → Value)))),
        model_cls.objects.filter (fun m => m.attrs.lookup f == some (Value.vstr v)) = [] →
        get_by model_cls f v entity_cls rr fm ad = .ok .noneResult
        ∧ get_raw_by model_cls f v = .ok none)
    ∧ (∀ (model_cls : ModelCls) (f v : String) (entity_cls : EntityType)
        (fm : Option (List (String × String)))
        (ad : Option (List (String × (Value → Value)))) (m : DjangoModel),
        model_cls.objects.filter (fun m => m.attrs.lookup f == some (Value.vstr v)) = [m] →
        get_by model_cls f v entity_cls false fm ad
            = (model_to_entity m entity_cls fm ad).map .entity
        ∧ get_by model_cls f v entity_cls true fm ad = .ok (.raw m)
        ∧ get_raw_by model_cls f v = .ok (some m)) := by
  constructor
  · intro mc f v E rr fm ad hf
    constructor
    · rw [get_by, objects_get, hf]
    · rw [get_raw_by, objects_get, hf]
  · intro mc f v E fm ad m hf
    refine ⟨?_, ?_, ?_⟩
    · rw [get_by, objects_get, hf]
      rfl
    · rw [get_by, objects_get, hf]
      rfl
    · rw [get_raw_by, objects_get, hf]

/-- Witness for C6: an empty store yields the `None` results; a singleton
store matching `id="1"` yields the converted entity, the raw object, and
the raw object through `get_raw_by`. -/
theorem claim_C6_get_by_witness :
    get_by ⟨[]⟩ "id" "1" ⟨[("id", none)]⟩ false none none = .ok .noneResult
    ∧ get_raw_by ⟨[]⟩ "id" "1" = .ok none
    ∧ get_by ⟨[⟨true, [("id", .vstr "1")]⟩]⟩ "id" "1" ⟨[("id", none)]⟩ false none none
        = (model_to_entity ⟨true, [("id", .vstr "1")]⟩ ⟨[("id", none)]⟩ none none).map .entity
    ∧ get_by ⟨[⟨true, [("id", .vstr "1")]⟩]⟩ "id" "1" ⟨[("id", none)]⟩ true none none
        = .ok (.raw ⟨true, [("id", .vstr "1")]⟩)
    ∧ get_raw_by ⟨[⟨true, [("id", .vstr "1")]⟩]⟩ "id" "1"
        = .ok (some ⟨true, [("id", .vstr "1")]⟩) := by
  have h1 := claim_C6_get_by.1 ⟨[]⟩ "id" "1" ⟨[("id", none)]⟩ false none none rfl
  have h2 := claim_C6_get_by.2 ⟨[⟨true, [("id", .vstr "1")]⟩]⟩ "id" "1" ⟨[("id", none)]⟩
    none none ⟨true, [("id", .vstr "1")]⟩ rfl
  exact ⟨h1.1, h1.2, h2.1, h2.2.1, h2.2.2⟩

/-- Field-level behaviour of `update_entity` on compatible dataclass
instances with distinct field names: each base field is kept where the
update's value is `None` and otherwise overridden by the asdict-converted
update value. -/
theorem update_entity_lookup (fsb fsu : List (String × Value))
    (hkeys : fsu.map Prod.fst = fsb.map Prod.fst)
    (hnd : (fsu.map Prod.fst).Nodup) :
    ∃ fs_r, update_entity (.vrec fsb) (.vrec fsu) = .ok (.vrec fs_r) ∧
      ∀ k vb vu, fsb.lookup k = some vb → fsu.lookup k = some vu →
        fs_r.lookup k = some (if isNone vu then vb else asdictVal vu) := by
  have hpakeys : (asdictFields fsu).map Prod.fst = fsu.map Prod.fst := by
    rw [asdictFields_eq_map, List.map_map]
    rfl
  set patch := (asdictFields fsu).filter (fun p => !(isNone p.2)) with hpatch
  have hguard : patch.all (fun p => fsb.any (fun q => q.1 == p.1)) = true := by
    apply keys_all_any
    intro p hp
    have h1 : p ∈ asdictFields fsu := List.mem_of_mem_filter hp
    have h2 : p.1 ∈ (asdictFields fsu).map Prod.fst := List.mem_map_of_mem Prod.fst h1
    rw [hpakeys, hkeys] at h2
    exact h2
  refine ⟨fsb.map (fun q => (q.1, (patch.lookup q.1).getD q.2)), ?_, ?_⟩
  · rw [update_entity, ← hpatch, dc_replace, if_pos hguard]
  · intro k vb vu hvb hvu
    have hlp : patch.lookup k = if isNone vu then none else some (asdictVal vu) := by
      rw [hpatch]
      rw [lookup_filter_nodup (fun v => !(isNone v)) (asdictFields fsu) k (hpakeys ▸ hnd)]
      rw [asdictFields_eq_map, lookup_map_value (fun _ v => asdictVal v) fsu k, hvu]
      cases hn : isNone vu with
      | true =>
        have : isNone (asdictVal vu) = true := by rw [isNone_asdictVal, hn]
        simp [this]
      | false =>
        have : isNone (asdictVal vu) = false := by rw [isNone_asdictVal, hn]
        simp [this]
    rw [lookup_map_value (fun k v => (patch.lookup k).getD v) fsb k, hvb, hlp]
    cases hn : isNone vu <;> simp

/-- C1 (amended): for compatible dataclass instances with distinct field
names, `update_entity base update` keeps each base field where the
update's value is `None` and otherwise replaces it with the update's
value converted by the recursive dataclass-to-dict conversion `asdict`;
in particular the result equals the update's own value whenever that
value is unchanged by `asdict` (e.g. contains no nested dataclass). -/
theorem claim_C1_update_entity (fsb fsu : List (String × Value))
    (hkeys : fsu.map Prod.fst = fsb.map Prod.fst)
    (hnd : (fsu.map Prod.fst).Nodup) :
    ∃ fs_r, update_entity (.vrec fsb) (.vrec fsu) = .ok (.vrec fs_r) ∧
      ∀ k vb vu, fsb.lookup k = some vb → fsu.lookup k = some vu →
        (vu = .vnone → fs_r.lookup k = some vb)
        ∧ (vu ≠ .vnone → fs_r.lookup k = some (asdictVal vu))
        ∧ (vu ≠ .vnone → asdictVal vu = vu → fs_r.lookup k = some vu) := by
  obtain ⟨fs_r, hok, hlk⟩ := update_entity_lookup fsb fsu hkeys hnd
  refine ⟨fs_r, hok, ?_⟩
  intro k vb vu hvb hvu
  have h := hlk k vb vu hvb hvu
  have hcase : ∀ (hne : vu ≠ .vnone), isNone vu = false := by
    intro hne
    cases hn : isNone vu with
    | true => exact absurd ((isNone_iff vu).mp hn) hne
    | false => rfl
  refine ⟨fun hn => ?_, fun hn => ?_, fun hn hfix => ?_⟩
  · rw [h, hn]
    rfl
  · rw [h, hcase hn]
    rfl
  · rw [h, hcase hn]
    simp [hfix]

/-- Counterexample to C1 as stated: with a non-`None` nested dataclass
value in the update, the resulting field holds the dict conversion of the
update's value, which is not equal to the update's value. -/
theorem claim_C1_counterexample :
    isNone (.vrec [("x", .vint 2)]) = false
    ∧ update_entity (.vrec [("a", .vrec [("x", .vint 1)])]) (.vrec [("a", .vrec [("x", .vint 2)])])
        = .ok (.vrec [("a", .vdict [("x", .vint 2)])])
    ∧ (Value.vdict [("x", .vint 2)]) ≠ .vrec [("x", .vint 2)] :=
  ⟨rfl, rfl, by simp⟩

/-- Witness for C1 at the spec's own concrete scenario (flat fields). -/
theorem claim_C1_update_entity_witness :
    ∃ fs_r, update_entity
        (.vrec [("first_name", .vstr "John"), ("age", .vint 25), ("email", .vstr "j@x.com")])
        (.vrec [("first_name", .vstr "Jane"), ("age", .vint 30), ("email", .vnone)])
        = .ok (.vrec fs_r)
      ∧ fs_r.lookup "first_name" = some (.vstr "Jane")
      ∧ fs_r.lookup "age" = some (.vint 30)
      ∧ fs_r.lookup "email" = some (.vstr "j@x.com") := by
  obtain ⟨fs_r, hok, hlk⟩ := claim_C1_update_entity
    [("first_name", .vstr "John"), ("age", .vint 25), ("email", .vstr "j@x.com")]
    [("first_name", .vstr "Jane"), ("age", .vint 30), ("email", .vnone)]
    rfl (by simp)
  refine ⟨fs_r, hok, ?_, ?_, ?_⟩
  · exact (hlk "first_name" (.vstr "John") (.vstr "Jane") rfl rfl).2.2 (by simp) rfl
  · exact (hlk "age" (.vint 25) (.vint 30) rfl rfl).2.2 (by simp) rfl
  · exact (hlk "email" (.vstr "j@x.com") .vnone rfl rfl).1 rfl

/-- C10: when an update field holds a non-`None` nested dataclass value,
`update_entity` stores its recursive `asdict` image — a plain dict, not a
dataclass instance — in the resulting record. -/
theorem claim_C10_nested_update_dict (fsb fsu gs : List (String × Value))
    (hkeys : fsu.map Prod.fst = fsb.map Prod.fst)
    (hnd : (fsu.map Prod.fst).Nodup) (k : String)
    (hvu : fsu.lookup k = some (.vrec gs)) (hvb : (fsb.lookup k).isSome) :
    ∃ fs_r, update_entity (.vrec fsb) (.vrec fsu) = .ok (.vrec fs_r) ∧
      fs_r.lookup k = some (.vdict (asdictFields gs)) ∧
      ∀ hs, (Value.vdict (asdictFields gs)) ≠ .vrec hs := by
  obtain ⟨vb, hvb'⟩ := Option.isSome_iff_exists.mp hvb
  obtain ⟨fs_r, hok, hlk⟩ := update_entity_lookup fsb fsu hkeys hnd
  have h := hlk k vb (.vrec gs) hvb' hvu
  exact ⟨fs_r, hok, by rw [h]; rfl, fun hs hcontra => Value.noConfusion hcontra⟩

/-- Witness for C10 at a concrete nested update. -/
theorem claim_C10_nested_update_dict_witness :
    ∃ fs_r, update_entity (.vrec [("a", .vnone)]) (.vrec [("a", .vrec [("x", .vint 2)])])
        = .ok (.vrec fs_r) ∧
      fs_r.lookup "a" = some (.vdict [("x", .vint 2)]) := by
  obtain ⟨fs_r, hok, hlk, _⟩ := claim_C10_nested_update_dict [("a", .vnone)]
    [("a", .vrec [("x", .vint 2)])] [("x", .vint 2)] rfl (by simp) "a" rfl rfl
  exact ⟨fs_r, hok, hlk⟩

/-- When every resolved model attribute exists, the `model_to_entity`
field loop succeeds and produces, for each entity field, the attribute
value under the resolved name, transformed by the adapter registered
under that resolved name when present. -/
theorem buildEntityDict_eq_ok (m : DjangoModel) (field_mapping : List (String × String))
    (adapters : List (String × (Value → Value))) (decl : List (String × Option Value))
    (h : ∀ p ∈ decl, (m.attrs.lookup ((field_mapping.lookup p.1).getD p.1)).isSome) :
    buildEntityDict m field_mapping adapters decl
      = .ok (decl.map (fun p =>
          (p.1, match adapters.lookup ((field_mapping.lookup p.1).getD p.1) with
                | some adapter =>
                    adapter ((m.attrs.lookup ((field_mapping.lookup p.1).getD p.1)).getD .vnone)
                | none => (m.attrs.lookup ((field_mapping.lookup p.1).getD p.1)).getD .vnone))) := by
  induction decl with
  | nil => simp [buildEntityDict]
  | cons p rest ih =>
    obtain ⟨k, d⟩ := p
    have hk := h (k, d) (List.mem_cons_self _ _)
    obtain ⟨raw, hraw⟩ := Option.isSome_iff_exists.mp hk
    have hrest := ih (fun q hq => h q (List.mem_cons_of_mem _ hq))
    have hname : (if ((field_mapping.lookup k).getD k) != k
        then ((field_mapping.lookup k).getD k) else k) = (field_mapping.lookup k).getD k := by
      by_cases hkk : ((field_mapping.lookup k).getD k) = k
      · rw [hkk]
        simp
      · simp [hkk]
    simp only [buildEntityDict, hname, modelGetattr, hraw, hrest]
    simp [hraw]

/-- C5: for a recognised store-model instance, `model_to_entity` assigns
to each declared record field the stored attribute whose name is
`fieldMapping` applied to the record field name (defaulting to the same
name), then applies the adapter registered under the resolved
stored-attribute name — not the record field name — when one is present. -/
theorem claim_C5_model_to_entity (m : DjangoModel) (entity_cls : EntityType)
    (field_mapping : Option (List (String × String)))
    (adapters : Option (List (String × (Value → Value))))
    (hm : m.is_model = true)
    (hattrs : ∀ p ∈ entity_cls.fields,
      (m.attrs.lookup (((field_mapping.getD []).lookup p.1).getD p.1)).isSome) :
    ∃ fs_r, model_to_entity m entity_cls field_mapping adapters = .ok (.vrec fs_r) ∧
      ∀ k d, entity_cls.fields.lookup k = some d →
        ∃ raw, m.attrs.lookup (((field_mapping.getD []).lookup k).getD k) = some raw ∧
          fs_r.lookup k = some
            (match (adapters.getD []).lookup (((field_mapping.getD []).lookup k).getD k) with
             | some adapter => adapter raw
             | none => raw) := by
  have hbuild := buildEntityDict_eq_ok m (field_mapping.getD []) (adapters.getD [])
    entity_cls.fields hattrs
  set F : String → Value := fun k =>
    match (adapters.getD []).lookup (((field_mapping.getD []).lookup k).getD k) with
    | some adapter =>
        adapter ((m.attrs.lookup (((field_mapping.getD []).lookup k).getD k)).getD .vnone)
    | none => (m.attrs.lookup (((field_mapping.getD []).lookup k).getD k)).getD .vnone
    with hF
  set entity_ := entity_cls.fields.map (fun p => (p.1, F p.1)) with hentity
  have hlke : ∀ k, entity_.lookup k = (entity_cls.fields.lookup k).map (fun _ => F k) := by
    intro k
    rw [hentity]
    exact lookup_map_value (fun k _ => F k) entity_cls.fields k
  have hkeys : ∀ p ∈ entity_, p.1 ∈ entity_cls.fields.map Prod.fst := by
    intro p hp
    rw [hentity] at hp
    obtain ⟨q, hq, hqp⟩ := List.mem_map.mp hp
    exact hqp ▸ List.mem_map_of_mem Prod.fst hq
  have hres : ∀ p ∈ entity_cls.fields, (resolveField entity_ p.1 p.2).isSome := by
    intro p hp
    have hmem : (entity_cls.fields.lookup p.1).isSome :=
      lookup_isSome_of_mem _ _ (List.mem_map_of_mem Prod.fst hp)
    obtain ⟨d, hd⟩ := Option.isSome_iff_exists.mp hmem
    rw [resolveField, hlke p.1, hd]
    rfl
  refine ⟨entity_cls.fields.map (fun p => (p.1, (resolveField entity_ p.1 p.2).getD .vnone)),
    ?_, ?_⟩
  · rw [model_to_entity, hm]
    simp only [Bool.not_true, Bool.false_eq_true, if_false]
    rw [hbuild]
    show mkEntity entity_cls entity_ = _
    rw [mkEntity_eq_ok entity_cls entity_ hkeys hres]
  · intro k d hd
    have hmem : (k, d) ∈ entity_cls.fields := mem_of_lookup_eq_some hd
    obtain ⟨raw, hraw⟩ := Option.isSome_iff_exists.mp (hattrs (k, d) hmem)
    refine ⟨raw, hraw, ?_⟩
    rw [lookup_map_value (fun k d => (resolveField entity_ k d).getD .vnone) entity_cls.fields k,
      hd]
    have hres' : resolveField entity_ k d = some (F k) := by
      rw [resolveField, hlke k, hd]
      rfl
    simp only [Option.map_some', hres', Option.getD_some, hF]
    simp only [hraw, Option.getD_some]

/-- Witness for C5: a store object whose `username` attribute is mapped to
the record field `name` and adapted by a function registered under the
stored-object attribute name `username`. -/
theorem claim_C5_model_to_entity_witness :
    ∃ fs_r, model_to_entity ⟨true, [("username", .vstr "john"), ("age", .vint 25)]⟩
        ⟨[("name", none), ("age", none)]⟩
        (some [("name", "username")])
        (some [("username", fun _ => .vstr "ADAPTED")])
        = .ok (.vrec fs_r) ∧
      fs_r.lookup "name" = some (.vstr "ADAPTED") ∧
      fs_r.lookup "age" = some (.vint 25) := by
  obtain ⟨fs_r, hok, hlk⟩ := claim_C5_model_to_entity
    ⟨true, [("username", .vstr "john"), ("age", .vint 25)]⟩
    ⟨[("name", none), ("age", none)]⟩
    (some [("name", "username")])
    (some [("username", fun _ => .vstr "ADAPTED")])
    rfl
    (by
      intro p hp
      simp only [List.mem_cons, List.not_mem_nil, or_false] at hp
      rcases hp with h | h <;> subst h <;> rfl)
  refine ⟨fs_r, hok, ?_, ?_⟩
  · obtain ⟨raw, hraw, hv⟩ := hlk "name" none rfl
    have h2 : (some (Value.vstr "john") : Option Value) = some raw := hraw
    cases h2
    exact hv
  · obtain ⟨raw, hraw, hv⟩ := hlk "age" none rfl
    have h2 : (some (Value.vint 25) : Option Value) = some raw := hraw
    cases h2
    exact hv

/-- On an association list with distinct keys, a member is what its key
looks up to. -/
theorem lookup_of_mem_nodup {α : Type} {l : List (String × α)} {k : String} {v : α}
    (hnd : (l.map Prod.fst).Nodup) (hmem : (k, v) ∈ l) : l.lookup k = some v := by
  induction l with
  | nil => simp at hmem
  | cons p rest ih =>
    obtain ⟨a, w⟩ := p
    simp only [List.map_cons, List.nodup_cons] at hnd
    obtain ⟨ha, hnd'⟩ := hnd
    rcases List.mem_cons.mp hmem with h | h
    · injection h with h1 h2
      subst h1
      subst h2
      simp
    · have hk : k ∈ rest.map Prod.fst := List.mem_map_of_mem Prod.fst h
      have hka : (k == a) = false := by
        simp only [beq_eq_false_iff_ne, ne_eq]
        intro hc
        exact ha (hc ▸ hk)
      simp only [List.lookup_cons, hka]
      exact ih hnd' h

/-- C3: with no field map, `dto_to_entity` constructs the record from only
the explicitly-set, non-`None` fields of the DTO (their dumped values);
every omitted field — unset or `None` — of the resulting record takes the
record type's own declared default. -/
theorem claim_C3_dto_to_entity (fs_d : List (String × Value × Bool)) (entity_cls : EntityType)
    (hnd : (fs_d.map Prod.fst).Nodup)
    (hndR : (entity_cls.fields.map Prod.fst).Nodup)
    (hkeys : ∀ k, k ∈ fs_d.map Prod.fst ↔ k ∈ entity_cls.fields.map Prod.fst)
    (hdef : ∀ k v s, fs_d.lookup k = some (v, s) → (s = false ∨ isNone v = true) →
      ∃ dv, entity_cls.fields.lookup k = some (some dv)) :
    ∃ fs_r, dto_to_entity (.vdto fs_d) entity_cls none = .ok (.vrec fs_r) ∧
      ∀ k v s, fs_d.lookup k = some (v, s) →
        ((s = true ∧ isNone v = false) → fs_r.lookup k = some (dumpVal true true v))
        ∧ ((s = false ∨ isNone v = true) →
            ∃ dv, entity_cls.fields.lookup k = some (some dv) ∧ fs_r.lookup k = some dv) := by
  set data := dumpDtoFields true true fs_d with hdata
  have hlkdata : ∀ k, data.lookup k
      = (fs_d.lookup k).bind
          (fun fv => if (true && !fv.2) || (true && isNone fv.1) then none
                     else some (dumpVal true true fv.1)) := by
    intro k
    rw [hdata]
    exact lookup_dumpDtoFields true true fs_d k hnd
  have hkeys1 : ∀ p ∈ data, p.1 ∈ entity_cls.fields.map Prod.fst := by
    intro p hp
    rw [hdata] at hp
    exact (hkeys p.1).mp (dumpDtoFields_keys_sub true true fs_d p hp)
  have hres : ∀ p ∈ entity_cls.fields, (resolveField data p.1 p.2).isSome := by
    intro p hp
    have hkfs : p.1 ∈ fs_d.map Prod.fst :=
      (hkeys p.1).mpr (List.mem_map_of_mem Prod.fst hp)
    obtain ⟨fv, hfv⟩ := Option.isSome_iff_exists.mp (lookup_isSome_of_mem _ _ hkfs)
    obtain ⟨v, s⟩ := fv
    by_cases hcond : ((true && !s) || (true && isNone v)) = true
    · have homit : s = false ∨ isNone v = true := by
        rcases Bool.or_eq_true_iff.mp hcond with h | h
        · exact Or.inl (by simpa using h)
        · exact Or.inr (by simpa using h)
      obtain ⟨dv, hdv⟩ := hdef p.1 v s hfv homit
      have hp2 : p.2 = some dv := by
        have hself := lookup_of_mem_nodup hndR hp
        rw [hself] at hdv
        exact Option.some.inj hdv
      have hdnone : data.lookup p.1 = none := by
        rw [hlkdata p.1, hfv]
        show (if (true && !s) || (true && isNone v) then none
              else some (dumpVal true true v)) = none
        rw [if_pos hcond]
      rw [resolveField, hdnone, hp2]
      rfl
    · have hdsome : data.lookup p.1 = some (dumpVal true true v) := by
        rw [hlkdata p.1, hfv]
        show (if (true && !s) || (true && isNone v) then none
              else some (dumpVal true true v)) = _
        rw [if_neg hcond]
      rw [resolveField, hdsome]
      rfl
  refine ⟨entity_cls.fields.map (fun p => (p.1, (resolveField data p.1 p.2).getD .vnone)),
    ?_, ?_⟩
  · rw [dto_to_entity.eq_def]
    show mkEntity entity_cls data = _
    rw [mkEntity_eq_ok entity_cls data hkeys1 hres]
  · intro k v s hk
    have hmemd : (k, (v, s)) ∈ fs_d := mem_of_lookup_eq_some hk
    have hkfs : k ∈ fs_d.map Prod.fst := List.mem_map_of_mem Prod.fst hmemd
    have hkR : k ∈ entity_cls.fields.map Prod.fst := (hkeys k).mp hkfs
    obtain ⟨d, hd⟩ := Option.isSome_iff_exists.mp (lookup_isSome_of_mem _ _ hkR)
    have hlkr : (entity_cls.fields.map
        (fun p => (p.1, (resolveField data p.1 p.2).getD .vnone))).lookup k
        = some ((resolveField data k d).getD .vnone) := by
      rw [lookup_map_value (fun k d => (resolveField data k d).getD .vnone) entity_cls.fields k,
        hd]
      rfl
    constructor
    · rintro ⟨hs, hv⟩
      have hcond : ((true && !s) || (true && isNone v)) = false := by
        rw [hs, hv]
        rfl
      have hdsome : data.lookup k = some (dumpVal true true v) := by
        rw [hlkdata k, hk]
        show (if (true && !s) || (true && isNone v) then none
              else some (dumpVal true true v)) = _
        rw [if_neg (by rw [hcond]; exact Bool.false_ne_true)]
      rw [hlkr, resolveField, hdsome]
      rfl
    · intro homit
      obtain ⟨dv, hdv⟩ := hdef k v s hk homit
      have hdeq : d = some dv := by
        rw [hd] at hdv
        exact Option.some.inj hdv
      have hcond : ((true && !s) || (true && isNone v)) = true := by
        rcases homit with h | h
        · rw [h]
          rfl
        · rw [h]
          simp
      have hdnone : data.lookup k = none := by
        rw [hlkdata k, hk]
        show (if (true && !s) || (true && isNone v) then none
              else some (dumpVal true true v)) = none
        rw [if_pos hcond]
      refine ⟨dv, hdv, ?_⟩
      rw [hlkr, resolveField, hdnone, hdeq]
      rfl

/-- Witness for C3: a DTO with a set non-null field, a field explicitly
set to `None`, and an unset field; the omitted fields take the record
defaults. -/
theorem claim_C3_dto_to_entity_witness :
    ∃ fs_r, dto_to_entity (.vdto [("first_name", .vstr "Test", true), ("age", .vnone, true),
        ("email", .vstr "e", false)])
        ⟨[("first_name", none), ("age", some (.vint 18)), ("email", some .vnone)]⟩ none
        = .ok (.vrec fs_r) ∧
      fs_r.lookup "first_name" = some (.vstr "Test") ∧
      fs_r.lookup "age" = some (.vint 18) ∧
      fs_r.lookup "email" = some .vnone := by
  obtain ⟨fs_r, hok, hfield⟩ := claim_C3_dto_to_entity
    [("first_name", .vstr "Test", true), ("age", .vnone, true), ("email", .vstr "e", false)]
    ⟨[("first_name", none), ("age", some (.vint 18)), ("email", some .vnone)]⟩
    (by simp) (by simp) (fun k => Iff.rfl)
    (by
      intro k v s h homit
      have hmem := mem_of_lookup_eq_some h
      simp only [List.mem_cons, List.not_mem_nil, or_false] at hmem
      rcases hmem with hc | hc | hc <;>
        (injection hc with h1 h2; subst h1; injection h2 with h3 h4; subst h3; subst h4)
      · rcases homit with h | h
        · cases h
        · simp [isNone] at h
      · exact ⟨.vint 18, rfl⟩
      · exact ⟨.vnone, rfl⟩)
  refine ⟨fs_r, hok, ?_, ?_, ?_⟩
  · exact (hfield "first_name" (.vstr "Test") true rfl).1 ⟨rfl, rfl⟩
  · obtain ⟨dv, hdv, hv⟩ := (hfield "age" .vnone true rfl).2 (Or.inr rfl)
    have h2 : (some (some (Value.vint 18)) : Option (Option Value)) = some (some dv) := hdv
    injection h2 with h3
    injection h3 with h4
    rw [← h4] at hv
    exact hv
  · obtain ⟨dv, hdv, hv⟩ := (hfield "email" (.vstr "e") false rfl).2 (Or.inl rfl)
    have h2 : (some (some (Value.vnone)) : Option (Option Value)) = some (some dv) := hdv
    injection h2 with h3
    injection h3 with h4
    rw [← h4] at hv
    exact hv

end EntityDTOConverter
